import Mathlib

/-!
Verification of the agent-orchestration core of FortiShield/reconpoint.

Shallow embedding of:
- `web/ai_agents/agents/models.py` (AgentStatus, AgentWorker, CrewState)
- `web/ai_agents/agents/registry.py` (IntelligenceRegistry over the Django cache)
- `web/ai_agents/agents/base_agent.py` (BaseAgent.run tool-call cache logic)
- `web/ai_agents/agents/worker_pool.py` (WorkerPool: spawn, _run_worker,
  _wait_for_dependencies, wait_for, reset)
- `web/ai_agents/agents/orchestrator.py` (CrewOrchestrator.run fan-out/fan-in,
  the no-tool-call branch, _cleanup_pending_calls)

The backing Django cache is modelled as an association-list store keyed by a
structured key type.  The Python keys are the strings
`ai_crew:workers:{project_id}:{worker_id}`, `ai_crew:worker_list:{project_id}`
and `ai_crew:tool_cache:{hash}`; since worker ids never contain a colon, that
string format is injective on the components, so the structured key type below
is a faithful image of the string keys.  TTL is modelled as non-expiry: all
claims quantify over calls made within the TTL window.
-/

/-- `AgentStatus` from models.py lines 17-26. -/
inductive AgentStatus
  | PENDING
  | RUNNING
  | COMPLETE
  | WARNING
  | ERROR
  | FAILED
  | CANCELLED
deriving DecidableEq, Repr

/-- `CrewState` from models.py lines 8-14. -/
inductive CrewState
  | IDLE
  | RUNNING
  | COMPLETE
  | ERROR
deriving DecidableEq, Repr

/-- A terminal worker status (`COMPLETE | WARNING | FAILED | ERROR | CANCELLED`). -/
def isTerminal : AgentStatus → Bool
  | AgentStatus.COMPLETE => true
  | AgentStatus.WARNING => true
  | AgentStatus.FAILED => true
  | AgentStatus.ERROR => true
  | AgentStatus.CANCELLED => true
  | _ => false

/-- `AgentWorker` dataclass from models.py lines 29-74.  Timestamps are modelled
as abstract `Nat` ticks (the code uses `time.time()` floats; no claim depends on
their values). -/
structure AgentWorker where
  id : String
  task : String
  status : AgentStatus := AgentStatus.PENDING
  priority : Nat := 1
  depends_on : List String := []
  result : Option String := none
  error : Option String := none
  tools_used : List String := []
  started_at : Option Nat := none
  completed_at : Option Nat := none
deriving DecidableEq, Repr

/-- Structured image of the Django-cache key strings generated by
`IntelligenceRegistry._gen_key` (registry.py lines 9-11). -/
inductive RegKey
  | worker (projectId : Nat) (workerId : String)
  | workerList (projectId : Nat)
  | toolCache (hash : String)
deriving DecidableEq, Repr

/-- Values stored in the Django cache by the registry: serialized worker
records, the per-project worker-id list, and cached tool-result strings. -/
inductive RegVal
  | wrec (w : AgentWorker)
  | ids (l : List String)
  | str (s : String)
deriving DecidableEq, Repr

/-- The external key-value store (Django `cache`).  Association list with
unique keys maintained by `storeSet`. -/
abbrev Store := List (RegKey × RegVal)

/-- `cache.get(key)` — first binding of the key, if any. -/
def storeGet : Store → RegKey → Option RegVal
  | [], _ => none
  | (k', v) :: rest, k => if k' = k then some v else storeGet rest k

/-- `cache.set(key, value, ...)` — overwrite the binding of the key. -/
def storeSet : Store → RegKey → RegVal → Store
  | [], k, v => [(k, v)]
  | (k', v') :: rest, k, v =>
      if k' = k then (k, v) :: rest else (k', v') :: storeSet rest k v

/-- `cache.delete(key)` — remove every binding of the key. -/
def storeDelete : Store → RegKey → Store
  | [], _ => []
  | (k', v') :: rest, k =>
      if k' = k then storeDelete rest k else (k', v') :: storeDelete rest k

/-- `cache.get(set_key, [])` for the per-project worker-id list
(registry.py lines 20-21, 38-39, 47-48). -/
def getIdList (st : Store) (pid : Nat) : List String :=
  match storeGet st (RegKey.workerList pid) with
  | some (RegVal.ids l) => l
  | _ => []

/-- `IntelligenceRegistry.set_worker` (registry.py lines 13-24): write the
record, then append the id to the project list if absent. -/
def set_worker (st : Store) (pid : Nat) (wid : String) (w : AgentWorker) : Store :=
  let st1 := storeSet st (RegKey.worker pid wid) (RegVal.wrec w)
  let cur := getIdList st1 pid
  if wid ∈ cur then st1
  else storeSet st1 (RegKey.workerList pid) (RegVal.ids (cur ++ [wid]))

/-- `IntelligenceRegistry.get_worker` (registry.py lines 26-30). -/
def get_worker (st : Store) (pid : Nat) (wid : String) : Option AgentWorker :=
  match storeGet st (RegKey.worker pid wid) with
  | some (RegVal.wrec w) => some w
  | _ => none

/-- `IntelligenceRegistry.delete_worker` (registry.py lines 32-42): delete the
record key, then remove the id from the project list (first occurrence, as
Python `list.remove`). -/
def delete_worker (st : Store) (pid : Nat) (wid : String) : Store :=
  let st1 := storeDelete st (RegKey.worker pid wid)
  let cur := getIdList st1 pid
  if wid ∈ cur then storeSet st1 (RegKey.workerList pid) (RegVal.ids (cur.erase wid))
  else st1

/-- `IntelligenceRegistry.get_all_workers` (registry.py lines 44-55): read the
id list, then read each record, skipping ids whose record has independently
expired. -/
def get_all_workers (st : Store) (pid : Nat) : List (String × AgentWorker) :=
  (getIdList st pid).filterMap fun wid =>
    (get_worker st pid wid).map fun w => (wid, w)

/-- `IntelligenceRegistry.cache_tool_result` (registry.py lines 57-61). -/
def cache_tool_result (st : Store) (hashKey : String) (result : String) : Store :=
  storeSet st (RegKey.toolCache hashKey) (RegVal.str result)

/-- `IntelligenceRegistry.get_tool_result` (registry.py lines 63-67). -/
def get_tool_result (st : Store) (hashKey : String) : Option String :=
  match storeGet st (RegKey.toolCache hashKey) with
  | some (RegVal.str s) => some s
  | _ => none

/-! ### Canonical argument serialization and the tool-call hash

`IntelligenceRegistry.generate_tool_hash` (registry.py lines 69-75) computes
`sha256(f"{agent_role}|{tool_name}|{json.dumps(arguments, sort_keys=True)}|{context}")`.
Arguments are modelled as string-keyed association lists; `sort_keys=True` is
an insertion sort on the keys.  sha256 is modelled as the identity on its
preimage — the claims only require that equal preimages give equal keys. -/

/-- One step of the key-sorted serialization: insert a pair before the first
pair whose key is not smaller. -/
def insertSorted (p : String × String) : List (String × String) → List (String × String)
  | [] => [p]
  | q :: rest => if p.1 ≤ q.1 then p :: q :: rest else q :: insertSorted p rest

/-- `sort_keys=True`: sort the argument pairs by key. -/
def sortByKey (l : List (String × String)) : List (String × String) :=
  l.foldr insertSorted []

/-- `json.dumps(arguments, sort_keys=True)`, up to the injective-enough
punctuation of JSON. -/
def canonicalArgs (l : List (String × String)) : String :=
  String.intercalate "," ((sortByKey l).map fun p => p.1 ++ ":" ++ p.2)

/-- `IntelligenceRegistry.generate_tool_hash` with sha256 modelled as the
identity on the raw string. -/
def generate_tool_hash (agentRole toolName : String)
    (arguments : List (String × String)) (context : String) : String :=
  agentRole ++ "|" ++ toolName ++ "|" ++ canonicalArgs arguments ++ "|" ++ context

/-! ### Tools and the agent tool-call loop (base_agent.py) -/

/-- Outcome of `tool.execute(arguments, runtime)`: a returned string, or a
raised exception with its message. -/
inductive ExecOutcome
  | ok (s : String)
  | raised (e : String)

/-- The narrow external Tool interface (§6 of the spec): a name and an
`execute` function.  Runtime context is absorbed into `execute`. -/
structure ToolSpec where
  name : String
  execute : List (String × String) → ExecOutcome

/-- `ToolCall` dataclass from base_agent.py lines 10-15, with arguments as a
string-keyed mapping. -/
structure ToolCallRec where
  id : String
  name : String
  arguments : List (String × String)
deriving DecidableEq

/-- `ToolResult` dataclass from base_agent.py lines 17-24. -/
structure ToolResultRec where
  tool_call_id : String
  tool_name : String
  result : Option String := none
  error : Option String := none
  success : Bool := true
deriving DecidableEq, Repr

/-- Modelled from the spec: `get_tool` (tools/registry.py, whose file is not in
src/) "resolves the tool by name" — lookup of the first tool with the requested
name. -/
def get_tool (tools : List ToolSpec) (name : String) : Option ToolSpec :=
  tools.find? fun t => t.name == name

/-- The Python slice `s[:n]` — the first `n` code points of `s`
(used for the `self.get_system_prompt()[:500]` context of the cache key,
base_agent.py line 115). -/
def pySlice (s : String) (n : Nat) : String :=
  (s.toList.take n).asString

/-- The cache-miss arm of the per-tool-call block of `BaseAgent.run`
(base_agent.py lines 127-152): resolve the tool; if absent produce an error
result; otherwise execute it, caching the result on success and capturing the
exception message on failure.  The third component counts invocations of
`tool.execute`. -/
def execToolMiss (tools : List ToolSpec) (tc : ToolCallRec) (hashKey : String)
    (st : Store) : ToolResultRec × Store × Nat :=
  match get_tool tools tc.name with
  | some tool =>
    match tool.execute tc.arguments with
    | ExecOutcome.ok r =>
        (⟨tc.id, tc.name, some r, none, true⟩, cache_tool_result st hashKey r, 1)
    | ExecOutcome.raised e =>
        (⟨tc.id, tc.name, none, some e, false⟩, st, 1)
  | none =>
      (⟨tc.id, tc.name, none, some ("Tool '" ++ tc.name ++ "' not found."), false⟩, st, 0)

/-- One tool call inside `BaseAgent.run` (base_agent.py lines 109-160): compute
the cache key from `(class name, tool name, arguments, system-prompt[:500])`;
the hit test is Python truthiness of the cached value (`if cached_result:`), so
`None` and the empty string both fall through to the miss arm.  Returns the
`ToolResult`, the updated cache store, and the number of `tool.execute`
invocations performed. -/
def processToolCall (agentRole sysPrompt : String) (tools : List ToolSpec)
    (tc : ToolCallRec) (st : Store) : ToolResultRec × Store × Nat :=
  let hashKey := generate_tool_hash agentRole tc.name tc.arguments (pySlice sysPrompt 500)
  match get_tool_result st hashKey with
  | some c =>
      if c = "" then execToolMiss tools tc hashKey st
      else (⟨tc.id, tc.name, some c, none, true⟩, st, 0)
  | none => execToolMiss tools tc hashKey st

/-! ### Worker pool (worker_pool.py) -/

/-- The in-process pool state: the task table `self._tasks` (worker ids in
insertion order — dict keys) and the id counter `self._next_id`
(worker_pool.py lines 33-34). -/
structure PoolState where
  tasks : List String
  nextId : Nat
deriving DecidableEq, Repr

/-- `WorkerPool._generate_id` (worker_pool.py lines 42-46). -/
def generate_id (nextId : Nat) : String :=
  "agent-" ++ toString nextId

/-- The state-relevant part of `WorkerPool.spawn` (worker_pool.py lines 48-89):
allocate a fresh id, create a `PENDING` worker record, persist it to the
registry, and register the execution task.  Returns the worker id, the new pool
state, and the new store. -/
def spawn (pool : PoolState) (st : Store) (pid : Nat) (task : String)
    (priority : Nat) (depends_on : List String) : String × PoolState × Store :=
  let wid := generate_id pool.nextId
  let worker : AgentWorker := { id := wid, task := task, priority := priority,
                                depends_on := depends_on }
  let st1 := set_worker st pid wid worker
  (wid, ⟨pool.tasks ++ [wid], pool.nextId + 1⟩, st1)

/-- Settled outcome of an `asyncio.Task` found in the task table. -/
inductive TaskOutcome
  | ok
  | failed (msg : String)
  | cancelled
deriving DecidableEq, Repr

/-- Awaiting a settled task: re-raises its exception or cancellation. -/
def awaitOutcome : TaskOutcome → Except String Unit
  | TaskOutcome.ok => Except.ok ()
  | TaskOutcome.failed m => Except.error m
  | TaskOutcome.cancelled => Except.error "CancelledError"

/-- One dependency step of `WorkerPool._wait_for_dependencies`
(worker_pool.py lines 240-247): an id not in the task table is skipped
(already satisfied); a tracked task is awaited under
`except (asyncio.CancelledError, Exception): pass`, so its failure or
cancellation is swallowed and the dependent continues. -/
def waitOneDep (tasks : List (String × TaskOutcome)) (dep : String) :
    Except String Unit :=
  match tasks.lookup dep with
  | none => Except.ok ()
  | some o =>
    match awaitOutcome o with
    | Except.ok _ => Except.ok ()
    | Except.error _ => Except.ok ()

/-- `WorkerPool._wait_for_dependencies` (worker_pool.py lines 240-247): wait on
each dependency in order; an error, were one ever produced, would propagate. -/
def wait_for_dependencies (tasks : List (String × TaskOutcome))
    (depends_on : List String) : Except String Unit :=
  depends_on.foldlM (fun _ dep => waitOneDep tasks dep) ()

/-- How the agent loop of one worker ends, as observed by `_run_worker`
(worker_pool.py lines 133-231): normal completion carrying the two metadata
flags accumulated from the loop (`replan_impossible`, `max_iterations_reached`),
an uncaught exception, or a cancellation. -/
inductive LoopOutcome
  | finished (isInfeasible hitMaxIterations : Bool)
  | raisedExc (msg : String)
  | cancelled
deriving DecidableEq, Repr

/-- Terminal status resolution after the agent loop in `_run_worker`
(worker_pool.py lines 204-218).  The source contains a dangling `else:` with no
matching `if` (line 209): the conditionals consulting `is_infeasible` and
`hit_max_iterations` are absent, so on normal loop completion the only status
ever assigned is `COMPLETE`; the two flags are computed (lines 175-180) but
never read.  (As written, the dangling `else` is a Python SyntaxError — the
module does not even import.)  This definition is the unique minimal reading
that makes the block executable: the `else` body run unconditionally. -/
def resolveStatus (isInfeasible hitMaxIterations : Bool) : AgentStatus :=
  AgentStatus.COMPLETE

/-- The worker's in-memory terminal status at the end of `_run_worker`
(worker_pool.py lines 133-231): `resolveStatus` on normal completion, `ERROR`
on an uncaught exception, `CANCELLED` on cancellation. -/
def runWorkerFinalStatus : LoopOutcome → AgentStatus
  | LoopOutcome.finished a b => resolveStatus a b
  | LoopOutcome.raisedExc _ => AgentStatus.ERROR
  | LoopOutcome.cancelled => AgentStatus.CANCELLED

/-- The statuses carried by the registry writes (`IntelligenceRegistry.set_worker`
calls) performed for one worker, in program order: the `PENDING` write in
`spawn` (line 74); the `RUNNING` write before the loop (line 101); one write per
loop round (line 169, status still `RUNNING`); then, on normal completion, the
result write (line 207, status still `RUNNING`) and the terminal write
(line 212); on an uncaught exception the single `ERROR` write (line 230); on
cancellation no further write (lines 220-224 write no registry entry). -/
def runWorkerStatusWrites (rounds : Nat) (outcome : LoopOutcome) : List AgentStatus :=
  AgentStatus.PENDING :: AgentStatus.RUNNING ::
    (List.replicate rounds AgentStatus.RUNNING ++
      match outcome with
      | LoopOutcome.finished a b => [AgentStatus.RUNNING, resolveStatus a b]
      | LoopOutcome.raisedExc _ => [AgentStatus.ERROR]
      | LoopOutcome.cancelled => [])

/-- The summary built per worker by `WorkerPool.wait_for`
(worker_pool.py lines 273-279). -/
structure WorkerSummary where
  task : String
  status : AgentStatus
  result : Option String
  error : Option String
  tools_used : List String
deriving DecidableEq, Repr

/-- The summary is read from the authoritative registry record. -/
def summaryOf (w : AgentWorker) : WorkerSummary :=
  ⟨w.task, w.status, w.result, w.error, w.tools_used⟩

/-- `WorkerPool.wait_for` (worker_pool.py lines 249-281), after all named
executions have settled: with `none` the ids come from the in-process task
table `self._tasks`; each id still present in the task table is awaited
(failures tolerated) and then its summary is read from the registry record,
skipping ids whose record is missing. -/
def wait_for (pool : PoolState) (st : Store) (pid : Nat)
    (agentIds : Option (List String)) : List (String × WorkerSummary) :=
  let ids := agentIds.getD pool.tasks
  ids.filterMap fun aid =>
    if aid ∈ pool.tasks then
      (get_worker st pid aid).map fun w => (aid, summaryOf w)
    else none

/-- `WorkerPool.reset` (worker_pool.py lines 329-341): read the project's id
list, delete each listed worker record, delete the list key, clear the task
table and reset the id counter. -/
def reset (st : Store) (pid : Nat) : PoolState × Store :=
  let worker_ids := getIdList st pid
  let st1 := worker_ids.foldl (fun s wid => delete_worker s pid wid) st
  let st2 := storeDelete st1 (RegKey.workerList pid)
  (⟨[], 0⟩, st2)

/-! ### Crew orchestrator (orchestrator.py) -/

/-- A normalized tool call requested by one orchestrator model turn
(after the `get_tc_id`/`get_tc_name`/`get_tc_args` normalization of
orchestrator.py lines 157-185). -/
structure CrewToolCall where
  id : String
  name : String
  args : List (String × String)
deriving DecidableEq, Repr

/-- The record returned by `execute_tool_call` (orchestrator.py lines 205-260). -/
structure CrewToolMsg where
  role : String
  tool_call_id : String
  content : String
  tool_name : String
  error : Bool
deriving DecidableEq, Repr

/-- One transcript turn of `self._messages`: role, content, the
`tool_call_id` key present on tool-result turns, and whether the turn carries a
non-empty `tool_calls` list (the truthiness of `last_msg.get("tool_calls")`). -/
structure OrchMsg where
  role : String
  content : String
  tool_call_id : Option String := none
  tool_calls : Bool := false
deriving DecidableEq, Repr

/-- The inner `execute_tool_call` coroutine of `CrewOrchestrator.run`
(orchestrator.py lines 205-260): resolve the tool in the crew tool set; an
unknown tool yields an error record; execution failure is captured as
`"Error: {e}"`; success carries the result string. -/
def execute_tool_call (crewTools : List ToolSpec) (tc : CrewToolCall) : CrewToolMsg :=
  match crewTools.find? (fun t => t.name == tc.name) with
  | none => ⟨"tool", tc.id, "Unknown tool: " ++ tc.name, tc.name, true⟩
  | some tool =>
    match tool.execute tc.args with
    | ExecOutcome.ok r => ⟨"tool", tc.id, r, tc.name, false⟩
    | ExecOutcome.raised e => ⟨"tool", tc.id, "Error: " ++ e, tc.name, true⟩

/-- `asyncio.gather` over the per-call coroutines (orchestrator.py
lines 262-265), made order-explicit: `order` is the sequence of call indices in
the order their executions happen to settle (any permutation of the indices);
`gather` collects the settled `(index, record)` pairs and re-emits the records
positionally, i.e. keyed by the original request index. -/
def gatherByCompletion (crewTools : List ToolSpec) (calls : List CrewToolCall)
    (order : List Nat) : List CrewToolMsg :=
  let settled := order.map fun i =>
    (i, execute_tool_call crewTools (calls.getD i ⟨"", "", []⟩))
  (List.range calls.length).filterMap fun i => settled.lookup i

/-- The transcript turn appended per result (orchestrator.py lines 268-273):
only `role`, `tool_call_id` and `content` survive into `self._messages`. -/
def toTranscriptMsg (m : CrewToolMsg) : OrchMsg :=
  ⟨m.role, m.content, some m.tool_call_id, false⟩

/-- Fan-out/fan-in of one orchestrator turn (orchestrator.py lines 262-273):
execute all requested calls concurrently (settling in `order`), then append one
tool-result turn per call to the transcript. -/
def fanInTranscript (msgs : List OrchMsg) (crewTools : List ToolSpec)
    (calls : List CrewToolCall) (order : List Nat) : List OrchMsg :=
  msgs ++ (gatherByCompletion crewTools calls order).map toTranscriptMsg

/-- The no-tool-call branch of `CrewOrchestrator.run` (orchestrator.py
lines 292-340): if the pool's registry directory lists no workers the text is
the final report; otherwise the `finish` tool, when present, is invoked with
the text as `context` (its failure leaves the report empty); when `finish` is
absent the raw text is the fallback report.  Returns the final report and the
list of argument mappings passed to invocations of `finish`. -/
def resolveNoToolCalls (st : Store) (pid : Nat) (crewTools : List ToolSpec)
    (content : String) : String × List (List (String × String)) :=
  if get_all_workers st pid ≠ [] then
    match crewTools.find? (fun t => t.name == "finish") with
    | some ft =>
      match ft.execute [("context", content)] with
      | ExecOutcome.ok r => (r, [[("context", content)]])
      | ExecOutcome.raised _ => ("", [[("context", content)]])
    | none => (content, [])
  else (content, [])

/-- `CrewOrchestrator._cleanup_pending_calls` (orchestrator.py lines 364-376),
expressed on the reversed transcript: starting from the last turn, pop any
assistant turn carrying tool calls and any tool turn; pop a user turn and stop;
stop at anything else. -/
def cleanupRev : List OrchMsg → List OrchMsg
  | [] => []
  | m :: rest =>
    if m.role = "assistant" ∧ m.tool_calls = true then cleanupRev rest
    else if m.role = "tool" then cleanupRev rest
    else if m.role = "user" then rest
    else m :: rest

/-- `CrewOrchestrator._cleanup_pending_calls` on the transcript in order. -/
def cleanup_pending_calls (msgs : List OrchMsg) : List OrchMsg :=
  (cleanupRev msgs.reverse).reverse

/-! ### Auxiliary definitions used by the statements below -/

/-- The invariant `set_worker` maintains between the record keys and the
project id list (registry.py lines 19-24): every stored worker record of a
project is listed in that project's id list. -/
def listConsistent (st : Store) (pid : Nat) : Bool :=
  st.all fun p =>
    match p.1 with
    | RegKey.worker pid' wid => pid' != pid || (getIdList st pid).contains wid
    | _ => true

/-- A side-effecting tool whose successful output is the empty string. -/
def sampleEmptyTool : ToolSpec := ⟨"scan", fun _ => ExecOutcome.ok ""⟩

/-- A side-effecting tool with a non-empty successful output. -/
def sampleScanTool : ToolSpec := ⟨"scan", fun _ => ExecOutcome.ok "open ports: 80,443"⟩

/-- A `finish` tool that synthesizes a fixed report. -/
def sampleFinishTool : ToolSpec := ⟨"finish", fun _ => ExecOutcome.ok "final report"⟩

/-- A tool echoing its `v` argument, for transcript-order scenarios. -/
def sampleEchoTool : ToolSpec :=
  ⟨"echo", fun args => ExecOutcome.ok ((args.lookup "v").getD "?")⟩

/-- A settled worker record as left in the registry by a completed worker. -/
def sampleDoneWorker : AgentWorker :=
  { id := "agent-0", task := "scan A", status := AgentStatus.COMPLETE,
    result := some "No findings.", completed_at := some 5 }

/-- A registry store holding exactly the settled worker `agent-0` of project 7. -/
def sampleStore : Store := set_worker [] 7 "agent-0" sampleDoneWorker

/-- No status before the last entry of a write trace is terminal. -/
def noEarlyTerminal : List AgentStatus → Bool
  | [] => true
  | [_] => true
  | s :: s2 :: rest => !(isTerminal s) && noEarlyTerminal (s2 :: rest)

/-! ## Helper lemmas about the store -/

theorem storeGet_storeSet_self (st : Store) (k : RegKey) (v : RegVal) :
    storeGet (storeSet st k v) k = some v := by
  induction st with
  | nil => simp [storeSet, storeGet]
  | cons p rest ih =>
    obtain ⟨k', v'⟩ := p
    by_cases h : k' = k
    · simp [storeSet, storeGet, h]
    · simp [storeSet, storeGet, h, ih]

theorem storeGet_storeSet_ne (st : Store) (k k' : RegKey) (v : RegVal)
    (h : k' ≠ k) : storeGet (storeSet st k v) k' = storeGet st k' := by
  have hne : k ≠ k' := fun hh => h hh.symm
  induction st with
  | nil => simp [storeSet, storeGet, hne]
  | cons p rest ih =>
    obtain ⟨k1, v1⟩ := p
    by_cases h1 : k1 = k
    · subst h1
      simp [storeSet, storeGet, hne]
    · simp only [storeSet, if_neg h1, storeGet]
      by_cases h2 : k1 = k'
      · simp [storeGet, h2]
      · simp [storeGet, h2, ih]

theorem storeGet_storeDelete_self (st : Store) (k : RegKey) :
    storeGet (storeDelete st k) k = none := by
  induction st with
  | nil => simp [storeDelete, storeGet]
  | cons p rest ih =>
    obtain ⟨k', v'⟩ := p
    by_cases h : k' = k
    · simp [storeDelete, h, ih]
    · simp [storeDelete, storeGet, h, ih]

theorem storeGet_storeDelete_ne (st : Store) (k k' : RegKey) (h : k' ≠ k) :
    storeGet (storeDelete st k) k' = storeGet st k' := by
  have hne : k ≠ k' := fun hh => h hh.symm
  induction st with
  | nil => simp [storeDelete]
  | cons p rest ih =>
    obtain ⟨k1, v1⟩ := p
    by_cases h1 : k1 = k
    · subst h1
      simp [storeDelete, storeGet, ih, hne]
    · simp only [storeDelete, if_neg h1, storeGet]
      by_cases h2 : k1 = k'
      · simp [storeGet, h2]
      · simp [storeGet, h2, ih]

theorem storeGet_mem (st : Store) (k : RegKey) (v : RegVal)
    (h : storeGet st k = some v) : (k, v) ∈ st := by
  induction st with
  | nil => simp [storeGet] at h
  | cons p rest ih =>
    obtain ⟨k', v'⟩ := p
    by_cases hk : k' = k
    · subst hk
      simp [storeGet] at h
      simp [h]
    · simp [storeGet, hk] at h
      exact List.mem_cons_of_mem _ (ih h)

/-! ## C2 — terminal status resolution in `_run_worker` -/

/-- C2: the claim says a worker whose loop reports `replan_impossible` resolves
to `FAILED` and one reporting `max_iterations_reached` resolves to `WARNING`.
The code computes both flags but never consults them: the conditional block is
missing and only a dangling `else: worker.status = AgentStatus.COMPLETE`
remains (worker_pool.py lines 209-210, a Python SyntaxError as written), so on
normal loop completion the assigned status is unconditionally `COMPLETE` and
neither `FAILED` nor `WARNING` is reachable there. -/
theorem run_worker_status_always_complete_on_normal_exit :
    resolveStatus true false = AgentStatus.COMPLETE
    ∧ resolveStatus true false ≠ AgentStatus.FAILED
    ∧ resolveStatus false true ≠ AgentStatus.WARNING
    ∧ ∀ a b : Bool, runWorkerFinalStatus (LoopOutcome.finished a b) = AgentStatus.COMPLETE := by
  refine ⟨rfl, by decide, by decide, ?_⟩
  intro a b
  rfl

/-! ## C7 — failed dependencies are swallowed -/

theorem waitOneDep_ok (tasks : List (String × TaskOutcome)) (dep : String) :
    waitOneDep tasks dep = Except.ok () := by
  unfold waitOneDep
  cases tasks.lookup dep with
  | none => rfl
  | some o => cases o <;> rfl

theorem wait_for_dependencies_ok (tasks : List (String × TaskOutcome))
    (deps : List String) : wait_for_dependencies tasks deps = Except.ok () := by
  unfold wait_for_dependencies
  induction deps with
  | nil => rfl
  | cons d rest ih =>
    simpa [List.foldlM_cons, waitOneDep_ok, Except.bind] using ih

/-- C7: a worker whose `depends_on` names a dependency that failed (or was
cancelled) is not aborted: `_wait_for_dependencies` returns normally (the
failure is swallowed by its `except ... : pass`), the dependent's execution
proceeds (the `RUNNING` registry write happens), and the dependent still ends
in one of its own terminal statuses; ids not tracked in the task table are
skipped, i.e. treated as already satisfied. -/
theorem failed_dependency_swallowed_terminal
    (tasks : List (String × TaskOutcome)) (deps : List String) (dep e : String)
    (hdep : tasks.lookup dep = some (TaskOutcome.failed e)) (hmem : dep ∈ deps)
    (rounds : Nat) (outcome : LoopOutcome) (untracked : String)
    (huntracked : tasks.lookup untracked = none) :
    wait_for_dependencies tasks deps = Except.ok ()
    ∧ AgentStatus.RUNNING ∈ runWorkerStatusWrites rounds outcome
    ∧ isTerminal (runWorkerFinalStatus outcome) = true
    ∧ waitOneDep tasks untracked = Except.ok () := by
  refine ⟨wait_for_dependencies_ok tasks deps, ?_, ?_, waitOneDep_ok tasks untracked⟩
  · simp [runWorkerStatusWrites]
  · cases outcome with
    | finished a b => simp [runWorkerFinalStatus, resolveStatus, isTerminal]
    | raisedExc m => rfl
    | cancelled => rfl

/-- Witness for C7 at a concrete input: dependency `A` failed, the dependent
with `depends_on = ["A"]` proceeds and terminates. -/
theorem failed_dependency_swallowed_terminal_witness :
    wait_for_dependencies [("A", TaskOutcome.failed "boom")] ["A"] = Except.ok ()
    ∧ AgentStatus.RUNNING ∈ runWorkerStatusWrites 2 (LoopOutcome.finished false false)
    ∧ isTerminal (runWorkerFinalStatus (LoopOutcome.finished false false)) = true
    ∧ waitOneDep [("A", TaskOutcome.failed "boom")] "B" = Except.ok () :=
  failed_dependency_swallowed_terminal [("A", TaskOutcome.failed "boom")] ["A"] "A" "boom"
    (by decide) (by decide) 2 (LoopOutcome.finished false false) "B" (by decide)

/-! ## C8 — registry status writes are monotonic -/

theorem noEarlyTerminal_cons (s : AgentStatus) (t : List AgentStatus)
    (hs : isTerminal s = false) (ht : noEarlyTerminal t = true) :
    noEarlyTerminal (s :: t) = true := by
  cases t with
  | nil => rfl
  | cons s2 rest => simp [noEarlyTerminal, hs, ht]

theorem noEarlyTerminal_get (l : List AgentStatus)
    (hne : noEarlyTerminal l = true) (i j : Nat)
    (hi : i < l.length) (hj : j < l.length) (hij : i ≤ j)
    (ht : isTerminal (l.get ⟨i, hi⟩) = true) :
    l.get ⟨j, hj⟩ = l.get ⟨i, hi⟩ := by
  induction l generalizing i j with
  | nil => exact absurd hi (by simp)
  | cons s rest ih =>
    cases i with
    | zero =>
      cases j with
      | zero => rfl
      | succ j' =>
        cases rest with
        | nil => exact absurd hj (by simp)
        | cons s2 rest2 =>
          simp only [List.get] at ht
          simp [noEarlyTerminal, ht] at hne
    | succ i' =>
      cases j with
      | zero => exact absurd hij (by omega)
      | succ j' =>
        have hrest : noEarlyTerminal rest = true := by
          cases rest with
          | nil => rfl
          | cons s2 rest2 =>
            simp only [noEarlyTerminal, Bool.and_eq_true] at hne
            exact hne.2
        exact ih hrest i' j' (by simpa using hi) (by simpa using hj) (by omega) ht

theorem noEarlyTerminal_replicate_append (r : Nat) (tail : List AgentStatus)
    (htail : noEarlyTerminal tail = true) :
    noEarlyTerminal (List.replicate r AgentStatus.RUNNING ++ tail) = true := by
  induction r with
  | zero => simpa using htail
  | succ r' ih =>
    rw [List.replicate_succ, List.cons_append]
    exact noEarlyTerminal_cons _ _ rfl ih

theorem noEarlyTerminal_runWorkerWrites (rounds : Nat) (outcome : LoopOutcome) :
    noEarlyTerminal (runWorkerStatusWrites rounds outcome) = true := by
  unfold runWorkerStatusWrites
  refine noEarlyTerminal_cons _ _ rfl
    (noEarlyTerminal_cons _ _ rfl (noEarlyTerminal_replicate_append rounds _ ?_))
  cases outcome with
  | finished a b => rfl
  | raisedExc m => rfl
  | cancelled => rfl

/-- C8: worker status transitions as recorded in the registry are monotonic —
in every write trace that `spawn` plus `_run_worker` performs on one worker's
record, once a write records a terminal status, every later write records the
same status. -/
theorem registry_status_writes_monotonic (rounds : Nat) (outcome : LoopOutcome)
    (i j : Nat) (hi : i < (runWorkerStatusWrites rounds outcome).length)
    (hj : j < (runWorkerStatusWrites rounds outcome).length) (hij : i ≤ j)
    (ht : isTerminal ((runWorkerStatusWrites rounds outcome).get ⟨i, hi⟩) = true) :
    (runWorkerStatusWrites rounds outcome).get ⟨j, hj⟩
      = (runWorkerStatusWrites rounds outcome).get ⟨i, hi⟩ :=
  noEarlyTerminal_get _ (noEarlyTerminal_runWorkerWrites rounds outcome) i j hi hj hij ht

/-- Witness for C8 at a concrete trace: one loop round ending in the terminal
`COMPLETE` write (index 3 of `[PENDING, RUNNING, RUNNING, RUNNING, COMPLETE]`
is not terminal; index 4 is, and nothing follows it). -/
theorem registry_status_writes_monotonic_witness :
    isTerminal ((runWorkerStatusWrites 1 (LoopOutcome.finished false false)).get
        ⟨4, by decide⟩) = true
    ∧ (runWorkerStatusWrites 1 (LoopOutcome.finished false false)).get ⟨4, by decide⟩
        = (runWorkerStatusWrites 1 (LoopOutcome.finished false false)).get ⟨4, by decide⟩ :=
  ⟨by decide,
   registry_status_writes_monotonic 1 (LoopOutcome.finished false false) 4 4
     (by decide) (by decide) (by decide) (by decide)⟩

/-! ## C6 — `cancel()` transcript repair -/

/-- C6 counterexample: on the transcript
`[user "A", user "B", assistant(tool_calls), tool, tool]` the claim predicts
that exactly the three trailing turns are removed, leaving `[user "A",
user "B"]`; the code also pops the preceding user turn (orchestrator.py
lines 372-374) and leaves `[user "A"]`. -/
theorem cleanup_removes_user_turn_counterexample :
    cleanup_pending_calls
        [⟨"user", "A", none, false⟩, ⟨"user", "B", none, false⟩,
         ⟨"assistant", "", none, true⟩, ⟨"tool", "r1", some "id1", false⟩,
         ⟨"tool", "r2", some "id2", false⟩]
      = [⟨"user", "A", none, false⟩]
    ∧ cleanup_pending_calls
        [⟨"user", "A", none, false⟩, ⟨"user", "B", none, false⟩,
         ⟨"assistant", "", none, true⟩, ⟨"tool", "r1", some "id1", false⟩,
         ⟨"tool", "r2", some "id2", false⟩]
      ≠ [⟨"user", "A", none, false⟩, ⟨"user", "B", none, false⟩] := by
  constructor
  · rfl
  · decide

/-- C6 amended: on a transcript ending in
`[user, assistant(tool_calls), tool, tool]`, `_cleanup_pending_calls` removes
the three trailing incomplete turns and additionally the now-unanswered user
turn that precedes them — four turns in total — and leaves every turn before
that user turn unchanged. -/
theorem cleanup_removes_four_trailing_turns (front : List OrchMsg)
    (u a t1 t2 : OrchMsg) (hu : u.role = "user") (ha : a.role = "assistant")
    (hatc : a.tool_calls = true) (ht1 : t1.role = "tool") (ht2 : t2.role = "tool") :
    cleanup_pending_calls (front ++ [u, a, t1, t2]) = front := by
  unfold cleanup_pending_calls
  rw [List.reverse_append]
  show (cleanupRev (t2 :: t1 :: a :: u :: front.reverse)).reverse = front
  rw [show cleanupRev (t2 :: t1 :: a :: u :: front.reverse) = front.reverse by
    simp [cleanupRev, hu, ha, hatc, ht1, ht2]]
  exact List.reverse_reverse front

/-- Witness for C6's amended statement at a concrete transcript. -/
theorem cleanup_removes_four_trailing_turns_witness :
    cleanup_pending_calls
        [⟨"user", "A", none, false⟩, ⟨"user", "B", none, false⟩,
         ⟨"assistant", "thinking", none, true⟩, ⟨"tool", "x", some "i1", false⟩,
         ⟨"tool", "y", some "i2", false⟩]
      = [⟨"user", "A", none, false⟩] :=
  cleanup_removes_four_trailing_turns [⟨"user", "A", none, false⟩]
    ⟨"user", "B", none, false⟩ ⟨"assistant", "thinking", none, true⟩
    ⟨"tool", "x", some "i1", false⟩ ⟨"tool", "y", some "i2", false⟩
    rfl rfl rfl rfl rfl

/-! ## C5 — the no-tool-call branch of the orchestrator -/

/-- C5: when the completion carries no tool calls, the orchestrator uses the
text directly as the final report iff no workers exist in the pool's registry
directory; when workers exist it invokes `finish` with the text as `context`;
only when `finish` is absent from the tool set does the raw text become the
final report as a fallback. -/
theorem no_tool_call_branch_finish_policy (st : Store) (pid : Nat)
    (crewTools : List ToolSpec) (content : String) :
    (get_all_workers st pid = [] →
       resolveNoToolCalls st pid crewTools content = (content, []))
    ∧ (∀ ft r, get_all_workers st pid ≠ [] →
         crewTools.find? (fun t => t.name == "finish") = some ft →
         ft.execute [("context", content)] = ExecOutcome.ok r →
         resolveNoToolCalls st pid crewTools content = (r, [[("context", content)]]))
    ∧ (get_all_workers st pid ≠ [] →
         crewTools.find? (fun t => t.name == "finish") = none →
         resolveNoToolCalls st pid crewTools content = (content, [])) := by
  refine ⟨?_, ?_, ?_⟩
  · intro hw
    simp [resolveNoToolCalls, hw]
  · intro ft r hw hfind hexec
    simp [resolveNoToolCalls, hw, hfind, hexec]
  · intro hw hfind
    simp [resolveNoToolCalls, hw, hfind]

/-- Witness for C5 at concrete inputs: with one worker in the directory and
the `finish` tool present, the report is `finish`'s output and `finish` was
invoked with the text as `context`; with no workers the text is returned
directly; with workers but no `finish` tool the text is the fallback. -/
theorem no_tool_call_branch_finish_policy_witness :
    resolveNoToolCalls sampleStore 7 [sampleFinishTool] "commentary"
        = ("final report", [[("context", "commentary")]])
    ∧ resolveNoToolCalls [] 7 [sampleFinishTool] "the answer" = ("the answer", [])
    ∧ resolveNoToolCalls sampleStore 7 [sampleScanTool] "raw text" = ("raw text", []) :=
  ⟨(no_tool_call_branch_finish_policy sampleStore 7 [sampleFinishTool] "commentary").2.1
      sampleFinishTool "final report" (by decide) rfl rfl,
   (no_tool_call_branch_finish_policy [] 7 [sampleFinishTool] "the answer").1 rfl,
   (no_tool_call_branch_finish_policy sampleStore 7 [sampleScanTool] "raw text").2.2
      (by decide) rfl⟩

/-! ## C1 — `wait_for(None)` and the in-process task table -/

/-- C1 counterexample: one spawned worker (`agent-0`) has settled and its
record is still in the registry (`sampleStore`), but the pool's in-process
task table has been discarded.  `wait_for(None)` enumerates
`self._tasks.keys()` (worker_pool.py lines 259-260), so it returns an empty
map instead of one entry per spawned worker id. -/
theorem wait_for_none_discarded_table_counterexample :
    wait_for ⟨[], 1⟩ sampleStore 7 none = []
    ∧ (wait_for ⟨[], 1⟩ sampleStore 7 none).map Prod.fst ≠ ["agent-0"]
    ∧ get_worker sampleStore 7 "agent-0" = some sampleDoneWorker :=
  ⟨rfl, by decide, rfl⟩

/-- C1 amended: after all spawned workers settle, `wait_for(None)` returns
exactly one summary per worker id still tracked in the in-process task table,
and each summary is read from the authoritative registry record (not from
in-memory results); when the task table has been discarded, the enumeration is
empty even though the registry entries remain. -/
theorem wait_for_none_tracked_ids_from_registry (pool : PoolState) (st : Store)
    (pid : Nat) (h : ∀ aid ∈ pool.tasks, (get_worker st pid aid).isSome = true) :
    (wait_for pool st pid none).map Prod.fst = pool.tasks
    ∧ ∀ p ∈ wait_for pool st pid none,
        (get_worker st pid p.1).map summaryOf = some p.2 := by
  have gen : ∀ ids : List String, (∀ aid ∈ ids, aid ∈ pool.tasks) →
      ((ids.filterMap fun aid =>
          if aid ∈ pool.tasks then
            (get_worker st pid aid).map fun w => (aid, summaryOf w)
          else none).map Prod.fst = ids
        ∧ ∀ p ∈ (ids.filterMap fun aid =>
            if aid ∈ pool.tasks then
              (get_worker st pid aid).map fun w => (aid, summaryOf w)
            else none),
            (get_worker st pid p.1).map summaryOf = some p.2) := by
    intro ids hsub
    induction ids with
    | nil => simp
    | cons a t ih =>
      have hmem : a ∈ pool.tasks := hsub a (List.mem_cons_self a t)
      have hsome := h a hmem
      obtain ⟨w, hw⟩ := Option.isSome_iff_exists.mp hsome
      have ht : ∀ aid ∈ t, aid ∈ pool.tasks := fun aid haid =>
        hsub aid (List.mem_cons_of_mem a haid)
      obtain ⟨ih1, ih2⟩ := ih ht
      constructor
      · simp only [List.filterMap_cons, if_pos hmem, hw, Option.map_some]
        simp [ih1]
      · intro p hp
        simp only [List.filterMap_cons, if_pos hmem, hw, Option.map_some] at hp
        rcases List.mem_cons.mp hp with hpa | hpt
        · subst hpa
          simp [hw, summaryOf]
        · exact ih2 p hpt
  have hw : wait_for pool st pid none = pool.tasks.filterMap fun aid =>
      if aid ∈ pool.tasks then
        (get_worker st pid aid).map fun w => (aid, summaryOf w)
      else none := rfl
  rw [hw]
  exact gen pool.tasks (fun aid haid => haid)

/-- Witness for C1's amended statement: with `agent-0` tracked and its record
in the registry, `wait_for(None)` returns exactly that id with the
registry-derived summary. -/
theorem wait_for_none_tracked_ids_from_registry_witness :
    (wait_for ⟨["agent-0"], 1⟩ sampleStore 7 none).map Prod.fst = ["agent-0"]
    ∧ ∀ p ∈ wait_for ⟨["agent-0"], 1⟩ sampleStore 7 none,
        (get_worker sampleStore 7 p.1).map summaryOf = some p.2 :=
  wait_for_none_tracked_ids_from_registry ⟨["agent-0"], 1⟩ sampleStore 7 (by decide)

/-! ## C4 — transcript ordering is independent of completion order -/

theorem lookup_map_pair (f : Nat → CrewToolMsg) (ord : List Nat) (i : Nat)
    (h : i ∈ ord) : (ord.map fun j => (j, f j)).lookup i = some (f i) := by
  induction ord with
  | nil => simp at h
  | cons a t ih =>
    by_cases hia : i = a
    · subst hia
      simp [List.lookup]
    · rcases List.mem_cons.mp h with h1 | h2
      · exact absurd h1 hia
      · have hbeq : (i == a) = false := by simpa using hia
        simp only [List.map_cons, List.lookup, hbeq]
        exact ih h2

theorem filterMap_eq_map_of (l : List Nat) (g : Nat → Option CrewToolMsg)
    (f : Nat → CrewToolMsg) (h : ∀ i ∈ l, g i = some (f i)) :
    l.filterMap g = l.map f := by
  induction l with
  | nil => rfl
  | cons a t ih =>
    rw [List.filterMap_cons, h a (List.mem_cons_self a t), List.map_cons,
      ih fun i hi => h i (List.mem_cons_of_mem a hi)]

theorem range_map_getD (l : List CrewToolCall) (d : CrewToolCall) :
    (List.range l.length).map (fun i => l.getD i d) = l := by
  induction l with
  | nil => rfl
  | cons a t ih =>
    rw [List.length_cons, List.range_succ_eq_map, List.map_cons, List.map_map]
    have hcomp : ((fun i => (a :: t).getD i d) ∘ Nat.succ) = fun i => t.getD i d := by
      funext i
      simp
    rw [hcomp, ih]
    simp

/-- C4: for every orchestrator turn requesting calls `[T1, ..., Tn]` and every
order in which the concurrent executions settle (any permutation of the call
indices), the tool-result turns are appended to the transcript in exactly the
original request order: the fan-in result equals the sequential left-to-right
execution of the calls, independently of `order`. -/
theorem transcript_order_independent_of_completion (msgs : List OrchMsg)
    (crewTools : List ToolSpec) (calls : List CrewToolCall) (order : List Nat)
    (hperm : order.Perm (List.range calls.length)) :
    fanInTranscript msgs crewTools calls order
      = msgs ++ calls.map fun tc => toTranscriptMsg (execute_tool_call crewTools tc) := by
  unfold fanInTranscript gatherByCompletion
  have hmem : ∀ i ∈ List.range calls.length, i ∈ order := fun i hi =>
    (hperm.mem_iff).mpr hi
  rw [filterMap_eq_map_of (List.range calls.length) _
      (fun i => execute_tool_call crewTools (calls.getD i ⟨"", "", []⟩))
      (fun i hi => lookup_map_pair _ order i (hmem i hi))]
  rw [show (List.range calls.length).map
        (fun i => execute_tool_call crewTools (calls.getD i ⟨"", "", []⟩))
      = ((List.range calls.length).map (fun i => calls.getD i ⟨"", "", []⟩)).map
          (execute_tool_call crewTools) by rw [List.map_map]; rfl]
  rw [range_map_getD calls ⟨"", "", []⟩, List.map_map]
  rfl

/-- Witness for C4 at a concrete input: three calls `[T1, T2, T3]` settle in
the order T2, T1, T3, yet the transcript receives their results in request
order. -/
theorem transcript_order_independent_of_completion_witness :
    fanInTranscript [] [sampleEchoTool]
        [⟨"i1", "echo", [("v", "one")]⟩, ⟨"i2", "echo", [("v", "two")]⟩,
         ⟨"i3", "echo", [("v", "three")]⟩] [1, 0, 2]
      = [⟨"i1", "echo", [("v", "one")]⟩, ⟨"i2", "echo", [("v", "two")]⟩,
         ⟨"i3", "echo", [("v", "three")]⟩].map
          (fun tc => toTranscriptMsg (execute_tool_call [sampleEchoTool] tc)) :=
  transcript_order_independent_of_completion [] [sampleEchoTool]
    [⟨"i1", "echo", [("v", "one")]⟩, ⟨"i2", "echo", [("v", "two")]⟩,
     ⟨"i3", "echo", [("v", "three")]⟩] [1, 0, 2] (by decide)

/-! ## Canonicalization is insensitive to argument order -/

theorem insertSorted_perm (p : String × String) (l : List (String × String)) :
    (insertSorted p l).Perm (p :: l) := by
  induction l with
  | nil => exact List.Perm.refl _
  | cons q rest ih =>
    by_cases h : p.1 ≤ q.1
    · have he : insertSorted p (q :: rest) = p :: q :: rest := by
        simp [insertSorted, h]
      rw [he]
    · have he : insertSorted p (q :: rest) = q :: insertSorted p rest := by
        simp [insertSorted, h]
      rw [he]
      exact (ih.cons q).trans (List.Perm.swap p q rest)

theorem sortByKey_perm (l : List (String × String)) : (sortByKey l).Perm l := by
  induction l with
  | nil => exact List.Perm.refl _
  | cons a t ih =>
    have h1 : sortByKey (a :: t) = insertSorted a (sortByKey t) := rfl
    rw [h1]
    exact (insertSorted_perm a (sortByKey t)).trans (ih.cons a)

theorem insertSorted_pairwise (p : String × String) (l : List (String × String))
    (hl : l.Pairwise fun x y => x.1 ≤ y.1) :
    (insertSorted p l).Pairwise fun x y => x.1 ≤ y.1 := by
  induction l with
  | nil => simp [insertSorted]
  | cons q rest ih =>
    rcases List.pairwise_cons.mp hl with ⟨hq, hrest⟩
    by_cases h : p.1 ≤ q.1
    · have he : insertSorted p (q :: rest) = p :: q :: rest := by
        simp [insertSorted, h]
      rw [he]
      refine List.pairwise_cons.mpr ⟨?_, hl⟩
      intro x hx
      rcases List.mem_cons.mp hx with rfl | hx'
      · exact h
      · exact le_trans h (hq x hx')
    · have he : insertSorted p (q :: rest) = q :: insertSorted p rest := by
        simp [insertSorted, h]
      rw [he]
      refine List.pairwise_cons.mpr ⟨?_, ih hrest⟩
      intro x hx
      have hx' : x = p ∨ x ∈ rest := by
        simpa using (insertSorted_perm p rest).mem_iff.mp hx
      rcases hx' with rfl | hx''
      · exact le_of_not_le h
      · exact hq x hx''

theorem sortByKey_pairwise (l : List (String × String)) :
    (sortByKey l).Pairwise fun x y => x.1 ≤ y.1 := by
  induction l with
  | nil => simp [sortByKey]
  | cons a t ih => exact insertSorted_pairwise a (sortByKey t) ih

theorem eq_of_perm_sorted : ∀ l1 l2 : List (String × String),
    l1.Perm l2 → (l1.Pairwise fun x y => x.1 ≤ y.1) →
    (l2.Pairwise fun x y => x.1 ≤ y.1) → (l1.map Prod.fst).Nodup → l1 = l2 := by
  intro l1
  induction l1 with
  | nil =>
    intro l2 hp _ _ _
    exact (List.Perm.eq_nil hp.symm).symm
  | cons a t1 ih =>
    intro l2 hp hs1 hs2 hnd
    cases l2 with
    | nil =>
      have := hp.length_eq
      simp at this
    | cons b t2 =>
      rcases List.pairwise_cons.mp hs1 with ⟨ha, ht1⟩
      rcases List.pairwise_cons.mp hs2 with ⟨hb, ht2⟩
      simp only [List.map_cons, List.nodup_cons] at hnd
      obtain ⟨ha1, hndt⟩ := hnd
      have hab : a = b := by
        have hmema : a ∈ b :: t2 := hp.mem_iff.mp (List.mem_cons_self a t1)
        rcases List.mem_cons.mp hmema with h1 | h2
        · exact h1
        · have h3 : b.1 ≤ a.1 := hb a h2
          have hmemb : b ∈ a :: t1 := hp.symm.mem_iff.mp (List.mem_cons_self b t2)
          rcases List.mem_cons.mp hmemb with h4 | h5
          · exact h4.symm
          · have h6 : a.1 ≤ b.1 := ha b h5
            have h7 : a.1 = b.1 := le_antisymm h6 h3
            have h8 : b.1 ∈ t1.map Prod.fst := List.mem_map_of_mem Prod.fst h5
            rw [← h7] at h8
            exact absurd h8 ha1
      subst hab
      rw [ih t2 hp.cons_inv ht1 ht2 hndt]

theorem sortByKey_eq_of_perm (l1 l2 : List (String × String)) (hp : l1.Perm l2)
    (hnd : (l1.map Prod.fst).Nodup) : sortByKey l1 = sortByKey l2 :=
  eq_of_perm_sorted _ _
    ((sortByKey_perm l1).trans (hp.trans (sortByKey_perm l2).symm))
    (sortByKey_pairwise l1) (sortByKey_pairwise l2)
    ((((sortByKey_perm l1).map Prod.fst).nodup_iff).mpr hnd)

/-- Argument mappings that are permutations of each other (equal as Python
dicts, whose keys are unique) serialize identically under `sort_keys=True`,
so argument order cannot defeat the cache key. -/
theorem canonicalArgs_perm (l1 l2 : List (String × String)) (hp : l2.Perm l1)
    (hnd : (l1.map Prod.fst).Nodup) : canonicalArgs l2 = canonicalArgs l1 := by
  unfold canonicalArgs
  rw [sortByKey_eq_of_perm l2 l1 hp
    (((hp.map Prod.fst).nodup_iff).mpr hnd)]

theorem generate_tool_hash_perm (agentRole toolName ctx : String)
    (a1 a2 : List (String × String)) (hp : a2.Perm a1)
    (hnd : (a1.map Prod.fst).Nodup) :
    generate_tool_hash agentRole toolName a2 ctx
      = generate_tool_hash agentRole toolName a1 ctx := by
  unfold generate_tool_hash
  rw [canonicalArgs_perm a1 a2 hp hnd]

/-! ## Cache behaviour of the tool-call loop (C3, C10) -/

theorem get_tool_result_cache_self (st : Store) (hashKey r : String) :
    get_tool_result (cache_tool_result st hashKey r) hashKey = some r := by
  unfold get_tool_result cache_tool_result
  rw [storeGet_storeSet_self]

theorem processToolCall_hit (agentRole sys : String) (tools : List ToolSpec)
    (tc : ToolCallRec) (st : Store) (c : String)
    (hc : get_tool_result st
        (generate_tool_hash agentRole tc.name tc.arguments (pySlice sys 500)) = some c)
    (hne : c ≠ "") :
    processToolCall agentRole sys tools tc st
      = (⟨tc.id, tc.name, some c, none, true⟩, st, 0) := by
  simp only [processToolCall]
  rw [hc]
  simp [hne]

theorem processToolCall_miss (agentRole sys : String) (tools : List ToolSpec)
    (tc : ToolCallRec) (st : Store)
    (hc : get_tool_result st
          (generate_tool_hash agentRole tc.name tc.arguments (pySlice sys 500)) = none
       ∨ get_tool_result st
          (generate_tool_hash agentRole tc.name tc.arguments (pySlice sys 500)) = some "") :
    processToolCall agentRole sys tools tc st
      = execToolMiss tools tc
          (generate_tool_hash agentRole tc.name tc.arguments (pySlice sys 500)) st := by
  simp only [processToolCall]
  rcases hc with hc | hc
  · rw [hc]
  · rw [hc]
    simp

theorem execToolMiss_ok (tools : List ToolSpec) (tc : ToolCallRec)
    (hashKey : String) (st : Store) (tool : ToolSpec) (r : String)
    (htool : get_tool tools tc.name = some tool)
    (hexec : tool.execute tc.arguments = ExecOutcome.ok r) :
    execToolMiss tools tc hashKey st
      = (⟨tc.id, tc.name, some r, none, true⟩, cache_tool_result st hashKey r, 1) := by
  unfold execToolMiss
  simp only [htool, hexec]

/-! ## C3 — identical calls within the TTL execute at most once -/

set_option maxRecDepth 8000 in
/-- C3 counterexample: a tool whose successful output is the empty string.
Two identical calls (same role, tool, arguments, context) within the TTL
window each invoke `tool.execute`: the empty cached value fails the truthiness
test `if cached_result:` of base_agent.py line 119, so the claimed at-most-once
bound is violated (two executions instead of at most one). -/
theorem tool_cache_empty_result_reexecutes_counterexample :
    (processToolCall "ReconAgentAgent" "sys" [sampleEmptyTool]
        ⟨"call-1", "scan", [("x", "1")]⟩ []).2.2
      + (processToolCall "ReconAgentAgent" "sys" [sampleEmptyTool]
          ⟨"call-2", "scan", [("x", "1")]⟩
          (processToolCall "ReconAgentAgent" "sys" [sampleEmptyTool]
            ⟨"call-1", "scan", [("x", "1")]⟩ []).2.1).2.2
      = 2
    ∧ ¬ ((processToolCall "ReconAgentAgent" "sys" [sampleEmptyTool]
          ⟨"call-1", "scan", [("x", "1")]⟩ []).2.2
        + (processToolCall "ReconAgentAgent" "sys" [sampleEmptyTool]
            ⟨"call-2", "scan", [("x", "1")]⟩
            (processToolCall "ReconAgentAgent" "sys" [sampleEmptyTool]
              ⟨"call-1", "scan", [("x", "1")]⟩ []).2.1).2.2 ≤ 1) := by
  constructor
  · rfl
  · decide

/-- C3 amended: for two tool calls with identical agent role, tool name,
arguments compared as mappings (a permutation with unique keys), and context,
issued within the TTL window, the underlying tool's `execute` runs at most
once and the second call is answered with the cached value as a successful
result — provided the tool resolves and its execution returns a non-empty
string (an empty successful output fails the truthiness cache-hit test and is
re-executed). -/
theorem tool_cache_at_most_once_nonempty (agentRole sys : String)
    (tools : List ToolSpec) (tc1 tc2 : ToolCallRec) (st : Store)
    (tool : ToolSpec) (r : String)
    (hname : tc2.name = tc1.name)
    (hperm : tc2.arguments.Perm tc1.arguments)
    (hnd : (tc1.arguments.map Prod.fst).Nodup)
    (htool : get_tool tools tc1.name = some tool)
    (hexec : tool.execute tc1.arguments = ExecOutcome.ok r)
    (hr : r ≠ "") :
    (processToolCall agentRole sys tools tc1 st).2.2
      + (processToolCall agentRole sys tools tc2
          (processToolCall agentRole sys tools tc1 st).2.1).2.2 ≤ 1
    ∧ (processToolCall agentRole sys tools tc2
        (processToolCall agentRole sys tools tc1 st).2.1).1.success = true
    ∧ (processToolCall agentRole sys tools tc2
        (processToolCall agentRole sys tools tc1 st).2.1).1.error = none
    ∧ (processToolCall agentRole sys tools tc2
        (processToolCall agentRole sys tools tc1 st).2.1).1.result
        = get_tool_result (processToolCall agentRole sys tools tc1 st).2.1
            (generate_tool_hash agentRole tc2.name tc2.arguments (pySlice sys 500))
    ∧ ((processToolCall agentRole sys tools tc2
        (processToolCall agentRole sys tools tc1 st).2.1).1.result).isSome = true := by
  have hkey : generate_tool_hash agentRole tc2.name tc2.arguments (pySlice sys 500)
      = generate_tool_hash agentRole tc1.name tc1.arguments (pySlice sys 500) := by
    rw [hname]
    exact generate_tool_hash_perm agentRole tc1.name (pySlice sys 500)
      tc1.arguments tc2.arguments hperm hnd
  by_cases hhit : ∃ c, get_tool_result st
      (generate_tool_hash agentRole tc1.name tc1.arguments (pySlice sys 500)) = some c
      ∧ c ≠ ""
  · obtain ⟨c, hc, hcne⟩ := hhit
    have h1 := processToolCall_hit agentRole sys tools tc1 st c hc hcne
    have h2 := processToolCall_hit agentRole sys tools tc2
      ((processToolCall agentRole sys tools tc1 st).2.1) c (by rw [hkey, h1]; exact hc) hcne
    rw [h1] at h2 ⊢
    rw [h2]
    refine ⟨by simp, rfl, rfl, ?_, rfl⟩
    rw [hkey, hc]
  · have hmiss : get_tool_result st
        (generate_tool_hash agentRole tc1.name tc1.arguments (pySlice sys 500)) = none
        ∨ get_tool_result st
          (generate_tool_hash agentRole tc1.name tc1.arguments (pySlice sys 500)) = some "" := by
      cases hc : get_tool_result st
          (generate_tool_hash agentRole tc1.name tc1.arguments (pySlice sys 500)) with
      | none => exact Or.inl rfl
      | some c =>
        by_cases hce : c = ""
        · refine Or.inr ?_
          rw [← hce]
        · exact absurd ⟨c, hc, hce⟩ hhit
    have h1 : processToolCall agentRole sys tools tc1 st
        = (⟨tc1.id, tc1.name, some r, none, true⟩,
           cache_tool_result st
             (generate_tool_hash agentRole tc1.name tc1.arguments (pySlice sys 500)) r, 1) := by
      rw [processToolCall_miss agentRole sys tools tc1 st hmiss]
      exact execToolMiss_ok tools tc1 _ st tool r htool hexec
    have hcached : get_tool_result (processToolCall agentRole sys tools tc1 st).2.1
        (generate_tool_hash agentRole tc1.name tc1.arguments (pySlice sys 500)) = some r := by
      rw [h1]
      exact get_tool_result_cache_self _ _ _
    have h2 := processToolCall_hit agentRole sys tools tc2
      ((processToolCall agentRole sys tools tc1 st).2.1) r (by rw [hkey]; exact hcached) hr
    rw [h2]
    refine ⟨by rw [h1]; simp, rfl, rfl, ?_, rfl⟩
    rw [hkey, hcached]

/-- Witness for C3's amended statement: two identical `scan` calls whose
arguments are the same mapping in different orders; the tool runs once and the
second call is served from the cache. -/
theorem tool_cache_at_most_once_nonempty_witness :
    (processToolCall "ReconAgentAgent" "sys" [sampleScanTool]
        ⟨"c1", "scan", [("a", "1"), ("b", "2")]⟩ []).2.2
      + (processToolCall "ReconAgentAgent" "sys" [sampleScanTool]
          ⟨"c2", "scan", [("b", "2"), ("a", "1")]⟩
          (processToolCall "ReconAgentAgent" "sys" [sampleScanTool]
            ⟨"c1", "scan", [("a", "1"), ("b", "2")]⟩ []).2.1).2.2 ≤ 1
    ∧ (processToolCall "ReconAgentAgent" "sys" [sampleScanTool]
        ⟨"c2", "scan", [("b", "2"), ("a", "1")]⟩
        (processToolCall "ReconAgentAgent" "sys" [sampleScanTool]
          ⟨"c1", "scan", [("a", "1"), ("b", "2")]⟩ []).2.1).1.success = true
    ∧ (processToolCall "ReconAgentAgent" "sys" [sampleScanTool]
        ⟨"c2", "scan", [("b", "2"), ("a", "1")]⟩
        (processToolCall "ReconAgentAgent" "sys" [sampleScanTool]
          ⟨"c1", "scan", [("a", "1"), ("b", "2")]⟩ []).2.1).1.error = none
    ∧ (processToolCall "ReconAgentAgent" "sys" [sampleScanTool]
        ⟨"c2", "scan", [("b", "2"), ("a", "1")]⟩
        (processToolCall "ReconAgentAgent" "sys" [sampleScanTool]
          ⟨"c1", "scan", [("a", "1"), ("b", "2")]⟩ []).2.1).1.result
        = get_tool_result (processToolCall "ReconAgentAgent" "sys" [sampleScanTool]
            ⟨"c1", "scan", [("a", "1"), ("b", "2")]⟩ []).2.1
            (generate_tool_hash "ReconAgentAgent" "scan" [("b", "2"), ("a", "1")]
              (pySlice "sys" 500))
    ∧ ((processToolCall "ReconAgentAgent" "sys" [sampleScanTool]
        ⟨"c2", "scan", [("b", "2"), ("a", "1")]⟩
        (processToolCall "ReconAgentAgent" "sys" [sampleScanTool]
          ⟨"c1", "scan", [("a", "1"), ("b", "2")]⟩ []).2.1).1.result).isSome = true :=
  tool_cache_at_most_once_nonempty "ReconAgentAgent" "sys" [sampleScanTool]
    ⟨"c1", "scan", [("a", "1"), ("b", "2")]⟩ ⟨"c2", "scan", [("b", "2"), ("a", "1")]⟩
    [] sampleScanTool "open ports: 80,443" rfl (by decide) (by decide) rfl rfl
    (by decide)

/-! ## C10 — the cache-hit test is truthiness, not key presence -/

/-- C10: when the value cached for a tool call's key is the empty string, a
later identical call within the TTL is treated as a cache miss — the tool is
executed again and the empty result re-cached — so the at-most-once execution
guarantee does not hold for tools whose successful output is empty. -/
theorem empty_cached_value_is_miss (agentRole sys : String)
    (tools : List ToolSpec) (tc : ToolCallRec) (st : Store) (tool : ToolSpec)
    (hc : get_tool_result st
        (generate_tool_hash agentRole tc.name tc.arguments (pySlice sys 500)) = some "")
    (htool : get_tool tools tc.name = some tool)
    (hexec : tool.execute tc.arguments = ExecOutcome.ok "") :
    (processToolCall agentRole sys tools tc st).2.2 = 1
    ∧ get_tool_result (processToolCall agentRole sys tools tc st).2.1
        (generate_tool_hash agentRole tc.name tc.arguments (pySlice sys 500)) = some ""
    ∧ (processToolCall agentRole sys tools tc st).1.result = some "" := by
  have h1 : processToolCall agentRole sys tools tc st
      = (⟨tc.id, tc.name, some "", none, true⟩,
         cache_tool_result st
           (generate_tool_hash agentRole tc.name tc.arguments (pySlice sys 500)) "", 1) := by
    rw [processToolCall_miss agentRole sys tools tc st (Or.inr hc)]
    exact execToolMiss_ok tools tc _ st tool "" htool hexec
  rw [h1]
  exact ⟨rfl, get_tool_result_cache_self _ _ _, rfl⟩

/-- Witness for C10 at a concrete input: the cache holds `""` under the call's
key; the call executes the tool (count 1) and re-caches the empty string. -/
theorem empty_cached_value_is_miss_witness :
    (processToolCall "ReconAgentAgent" "sys" [sampleEmptyTool]
        ⟨"call-2", "scan", [("x", "1")]⟩
        (cache_tool_result []
          (generate_tool_hash "ReconAgentAgent" "scan" [("x", "1")] (pySlice "sys" 500))
          "")).2.2 = 1
    ∧ get_tool_result (processToolCall "ReconAgentAgent" "sys" [sampleEmptyTool]
        ⟨"call-2", "scan", [("x", "1")]⟩
        (cache_tool_result []
          (generate_tool_hash "ReconAgentAgent" "scan" [("x", "1")] (pySlice "sys" 500))
          "")).2.1
        (generate_tool_hash "ReconAgentAgent" "scan" [("x", "1")] (pySlice "sys" 500))
        = some ""
    ∧ (processToolCall "ReconAgentAgent" "sys" [sampleEmptyTool]
        ⟨"call-2", "scan", [("x", "1")]⟩
        (cache_tool_result []
          (generate_tool_hash "ReconAgentAgent" "scan" [("x", "1")] (pySlice "sys" 500))
          "")).1.result = some "" :=
  empty_cached_value_is_miss "ReconAgentAgent" "sys" [sampleEmptyTool]
    ⟨"call-2", "scan", [("x", "1")]⟩
    (cache_tool_result []
      (generate_tool_hash "ReconAgentAgent" "scan" [("x", "1")] (pySlice "sys" 500)) "")
    sampleEmptyTool (get_tool_result_cache_self _ _ _) rfl rfl

/-! ## C9 — `reset()` restores a fresh pool -/

theorem get_worker_delete_self (s : Store) (pid : Nat) (wid : String) :
    get_worker (delete_worker s pid wid) pid wid = none := by
  simp only [delete_worker, get_worker]
  by_cases h : wid ∈ getIdList (storeDelete s (RegKey.worker pid wid)) pid
  · rw [if_pos h, storeGet_storeSet_ne _ _ _ _ (fun hk => RegKey.noConfusion hk),
      storeGet_storeDelete_self]
  · rw [if_neg h, storeGet_storeDelete_self]

theorem get_worker_delete_ne (s : Store) (pid : Nat) (wid w' : String)
    (h : wid ≠ w') :
    get_worker (delete_worker s pid w') pid wid = get_worker s pid wid := by
  simp only [delete_worker, get_worker]
  have hk1 : RegKey.worker pid wid ≠ RegKey.workerList pid :=
    fun hk => RegKey.noConfusion hk
  have hk2 : RegKey.worker pid wid ≠ RegKey.worker pid w' := by
    intro hk
    injection hk with h1 h2
    exact h h2
  by_cases hmem : w' ∈ getIdList (storeDelete s (RegKey.worker pid w')) pid
  · rw [if_pos hmem, storeGet_storeSet_ne _ _ _ _ hk1,
      storeGet_storeDelete_ne _ _ _ hk2]
  · rw [if_neg hmem, storeGet_storeDelete_ne _ _ _ hk2]

theorem get_worker_foldl_delete (pid : Nat) (wid : String) :
    ∀ (ids : List String) (s : Store),
      (wid ∈ ids ∨ get_worker s pid wid = none) →
      get_worker (ids.foldl (fun a w => delete_worker a pid w) s) pid wid = none := by
  intro ids
  induction ids with
  | nil =>
    intro s h
    rcases h with h | h
    · simp at h
    · simpa using h
  | cons a t ih =>
    intro s h
    rw [List.foldl_cons]
    by_cases hwa : wid = a
    · subst hwa
      exact ih (delete_worker s pid wid) (Or.inr (get_worker_delete_self s pid wid))
    · rcases h with h | h
      · rcases List.mem_cons.mp h with h1 | h2
        · exact absurd h1 hwa
        · exact ih _ (Or.inl h2)
      · refine ih _ (Or.inr ?_)
        rw [get_worker_delete_ne s pid wid a hwa]
        exact h

theorem getIdList_reset (st : Store) (pid : Nat) :
    getIdList (reset st pid).2 pid = [] := by
  simp only [reset, getIdList]
  rw [storeGet_storeDelete_self]

theorem get_all_workers_reset (st : Store) (pid : Nat) :
    get_all_workers (reset st pid).2 pid = [] := by
  unfold get_all_workers
  rw [getIdList_reset]
  rfl

theorem get_worker_reset (st : Store) (pid : Nat) (wid : String)
    (h : listConsistent st pid = true) :
    get_worker (reset st pid).2 pid wid = none := by
  have hdel : get_worker (reset st pid).2 pid wid
      = get_worker ((getIdList st pid).foldl
          (fun s w => delete_worker s pid w) st) pid wid := by
    simp only [reset, get_worker]
    rw [storeGet_storeDelete_ne _ _ _ (fun hk => RegKey.noConfusion hk)]
  rw [hdel]
  apply get_worker_foldl_delete pid wid (getIdList st pid) st
  cases hg : storeGet st (RegKey.worker pid wid) with
  | none =>
    refine Or.inr ?_
    unfold get_worker
    rw [hg]
  | some v =>
    cases v with
    | wrec w =>
      refine Or.inl ?_
      have hmem := storeGet_mem st (RegKey.worker pid wid) (RegVal.wrec w) hg
      unfold listConsistent at h
      have hp := List.all_eq_true.mp h _ hmem
      simp only [bne_self_eq_false, Bool.false_or] at hp
      simpa using hp
    | ids l =>
      refine Or.inr ?_
      unfold get_worker
      rw [hg]
    | str s2 =>
      refine Or.inr ?_
      unfold get_worker
      rw [hg]

/-- C9: after `reset()` the pool is indistinguishable from a freshly
constructed one — the project's id list and worker directory are empty, every
worker record of the scope is gone (given the record/list consistency that
`set_worker` maintains), the task table is empty, the id counter is zero, and
the next `spawn()` yields worker id `agent-0` (counter 0). -/
theorem reset_clears_scope_and_counter (st : Store) (pid : Nat) (task : String)
    (priority : Nat) (deps : List String) (h : listConsistent st pid = true) :
    getIdList (reset st pid).2 pid = []
    ∧ get_all_workers (reset st pid).2 pid = []
    ∧ (∀ wid, get_worker (reset st pid).2 pid wid = none)
    ∧ (reset st pid).1.tasks = []
    ∧ (reset st pid).1.nextId = 0
    ∧ (spawn (reset st pid).1 (reset st pid).2 pid task priority deps).1 = "agent-0" :=
  ⟨getIdList_reset st pid, get_all_workers_reset st pid,
   fun wid => get_worker_reset st pid wid h, rfl, rfl,
   (by decide : generate_id 0 = "agent-0")⟩

/-- Witness for C9 at a concrete state: resetting a registry holding the
settled worker `agent-0` of project 7 empties the scope, and the next spawn
produces `agent-0` again. -/
theorem reset_clears_scope_and_counter_witness :
    getIdList (reset sampleStore 7).2 7 = []
    ∧ get_all_workers (reset sampleStore 7).2 7 = []
    ∧ (∀ wid, get_worker (reset sampleStore 7).2 7 wid = none)
    ∧ (reset sampleStore 7).1.tasks = []
    ∧ (reset sampleStore 7).1.nextId = 0
    ∧ (spawn (reset sampleStore 7).1 (reset sampleStore 7).2 7 "scan B" 1 []).1
        = "agent-0" :=
  reset_clears_scope_and_counter sampleStore 7 "scan B" 1 [] (by decide)
